import Mathlib

/-!
Verification of the RecallAI retrieval pipeline
(backend/app: chunker, embedder, vector store, query engine)
against its natural-language specification.

Python text is modelled as `List Char` (slicing `text[a:b]` is
`(text.drop a).take (b - a)`), Python integers as `Int` (or `Nat` where the
claim restricts to non-negative ranges), exact rational arithmetic stands in
for floating point, and fallible operations return `Except`.
-/

namespace RecallAI

/-! ## Chunker — `simple_chunker` in `backend/app/api/v1/endpoints/ingest.py`

The source is a `while start < len(text)` loop that appends
`text[start:start+chunk_size]` and then executes `start += chunk_size - overlap`.
-/

/-- The cursor (`start`) of the `while start < len(text)` loop of
`simple_chunker` after `n` iterations: it begins at `0` and each iteration
executes `start += chunk_size - overlap`.  Parameters are `Int` because Python
integers are signed and unbounded, and the loop body itself never bounds them. -/
def chunkerCursor (chunk_size overlap : Int) : Nat → Int
  | 0 => 0
  | n + 1 => chunkerCursor chunk_size overlap n + (chunk_size - overlap)

/-- The chunk-collecting loop of `simple_chunker`, from an arbitrary cursor
position.  Each iteration appends `text[start:start+chunk_size]`, i.e.
`(text.drop start).take chunk_size`, then advances the cursor by
`chunk_size - overlap`.  The source loop terminates exactly when the step is
positive, so this terminating embedding carries `h : overlap < chunk_size`;
the complementary (non-terminating) configurations are analysed through
`chunkerCursor`. -/
def chunksFrom (chunk_size overlap : Nat) (h : overlap < chunk_size)
    (text : List Char) (start : Nat) : List (List Char) :=
  if hs : start < text.length then
    ((text.drop start).take chunk_size) ::
      chunksFrom chunk_size overlap h text (start + (chunk_size - overlap))
  else []
termination_by text.length - start
decreasing_by omega

/-- `simple_chunker(text, chunk_size, overlap)`: returns `[]` on empty `text`
(`if not text: return []`), otherwise runs the chunk loop from `start = 0`. -/
def simple_chunker (text : List Char) (chunk_size overlap : Nat)
    (h : overlap < chunk_size) : List (List Char) :=
  if text = [] then [] else chunksFrom chunk_size overlap h text 0

/-- The reconstruction operation named by the spec: concatenate the chunks
after removing the first `overlap` characters of every chunk except the
first. -/
def glueChunks (overlap : Nat) : List (List Char) → List Char
  | [] => []
  | c :: rest => c ++ (rest.map (List.drop overlap)).flatten

theorem chunkerCursor_eq (chunk_size overlap : Int) (n : Nat) :
    chunkerCursor chunk_size overlap n = n * (chunk_size - overlap) := by
  induction n with
  | zero => simp [chunkerCursor]
  | succ m ih =>
    rw [chunkerCursor, ih]
    push_cast
    ring

/-- C2: for every text and every parameter pair with
`chunk_size - overlap <= 0`, the loop guard `start < len(text)` of
`simple_chunker` still holds after every number `n` of iterations: the
source's loop never terminates, and no configuration error is ever raised
(the function body contains no validation at all). -/
theorem c2_loop_never_exits (chunk_size overlap : Int) (text : List Char)
    (hstep : chunk_size - overlap ≤ 0) (hne : text ≠ []) (n : Nat) :
    chunkerCursor chunk_size overlap n < (text.length : Int) := by
  have hlen : 0 < text.length := List.length_pos.mpr hne
  have hlen' : (0 : Int) < (text.length : Int) := Int.natCast_pos.mpr hlen
  have hnn : (0 : Int) ≤ (n : Int) := Int.natCast_nonneg n
  have hmul : (n : Int) * (chunk_size - overlap) ≤ (n : Int) * 0 :=
    mul_le_mul_of_nonneg_left hstep hnn
  rw [chunkerCursor_eq]
  simp only [mul_zero] at hmul
  linarith

theorem c2_witness :
    ((1 : Int) - 1 ≤ 0 ∧ "ab".toList ≠ []) ∧
      chunkerCursor 1 1 5 < (("ab".toList.length : Nat) : Int) :=
  ⟨⟨by decide, by decide⟩, c2_loop_never_exits 1 1 "ab".toList (by decide) (by decide) 5⟩

theorem chunksFrom_flatten_drop (chunk_size overlap : Nat) (h : overlap < chunk_size)
    (text : List Char) (start : Nat) (hs : start < text.length) :
    ((chunksFrom chunk_size overlap h text start).map (List.drop overlap)).flatten
      = text.drop (start + overlap) := by
  rw [chunksFrom, dif_pos hs]
  by_cases h2 : start + (chunk_size - overlap) < text.length
  · rw [List.map_cons, List.flatten_cons,
      chunksFrom_flatten_drop chunk_size overlap h text _ h2]
    have h3 : List.drop overlap ((text.drop start).take chunk_size)
        = List.take (chunk_size - overlap) (text.drop (start + overlap)) := by
      rw [List.drop_take, List.drop_drop]
    have h4 : start + (chunk_size - overlap) + overlap
        = start + overlap + (chunk_size - overlap) := by omega
    have h5 : List.drop (start + overlap + (chunk_size - overlap)) text
        = List.drop (chunk_size - overlap) (List.drop (start + overlap) text) :=
      (List.drop_drop ..).symm
    rw [h3, h4, h5]
    exact List.take_append_drop ..
  · rw [List.map_cons, List.flatten_cons, chunksFrom, dif_neg h2]
    simp only [List.map_nil, List.flatten_nil, List.append_nil]
    rw [List.drop_take, List.drop_drop]
    exact List.take_of_length_le (by simp only [List.length_drop]; omega)
termination_by text.length - start
decreasing_by omega

theorem getLast?_cons_of_ne_nil {α : Type} (a : α) {l : List α} (hl : l ≠ []) :
    (a :: l).getLast? = l.getLast? := by
  cases l with
  | nil => exact absurd rfl hl
  | cons b t => exact List.getLast?_cons_cons ..

theorem chunksFrom_getLast? (chunk_size overlap : Nat) (h : overlap < chunk_size)
    (text : List Char) (start : Nat) (hs : start < text.length) :
    ∃ L, L < text.length ∧
      (chunksFrom chunk_size overlap h text start).getLast? = some (text.drop L) := by
  by_cases h2 : start + (chunk_size - overlap) < text.length
  · obtain ⟨L, hl1, hl2⟩ := chunksFrom_getLast? chunk_size overlap h text _ h2
    refine ⟨L, hl1, ?_⟩
    rw [chunksFrom, dif_pos hs]
    have hcne : chunksFrom chunk_size overlap h text (start + (chunk_size - overlap)) ≠ [] := by
      rw [chunksFrom, dif_pos h2]
      simp
    rw [getLast?_cons_of_ne_nil _ hcne, hl2]
  · refine ⟨start, hs, ?_⟩
    rw [chunksFrom, dif_pos hs, chunksFrom, dif_neg h2]
    have ht : (text.drop start).take chunk_size = text.drop start :=
      List.take_of_length_le (by simp only [List.length_drop]; omega)
    simp [ht]
termination_by text.length - start
decreasing_by omega

theorem simple_chunker_glue (text : List Char) (chunk_size overlap : Nat)
    (h : overlap < chunk_size) (hne : text ≠ []) :
    glueChunks overlap (simple_chunker text chunk_size overlap h) = text := by
  have hlen : 0 < text.length := List.length_pos.mpr hne
  rw [simple_chunker, if_neg hne, chunksFrom, dif_pos hlen]
  rw [glueChunks]
  simp only [List.drop_zero, Nat.zero_add]
  by_cases hlt : chunk_size - overlap < text.length
  · rw [chunksFrom_flatten_drop chunk_size overlap h text _ hlt]
    have e : chunk_size - overlap + overlap = chunk_size := by omega
    rw [e]
    exact List.take_append_drop ..
  · rw [chunksFrom, dif_neg hlt]
    simp only [List.map_nil, List.flatten_nil, List.append_nil]
    exact List.take_of_length_le (by omega)

/-- C6: for all non-empty `text` and parameters with
`chunk_size > overlap ≥ 0`, concatenating the chunker's output after removing
the first `overlap` characters of every chunk except the first reconstructs
`text` exactly, and the last chunk is a non-empty suffix of `text` (its end is
exactly position `len(text)`). -/
theorem c6_chunker_reconstructs (text : List Char) (chunk_size overlap : Nat)
    (h : overlap < chunk_size) (hne : text ≠ []) :
    glueChunks overlap (simple_chunker text chunk_size overlap h) = text ∧
      ∃ c, (simple_chunker text chunk_size overlap h).getLast? = some c ∧
        c ≠ [] ∧ c.IsSuffix text := by
  refine ⟨simple_chunker_glue text chunk_size overlap h hne, ?_⟩
  have hlen : 0 < text.length := List.length_pos.mpr hne
  obtain ⟨L, hL, hlast⟩ := chunksFrom_getLast? chunk_size overlap h text 0 hlen
  refine ⟨text.drop L, ?_, ?_, List.drop_suffix ..⟩
  · rw [simple_chunker, if_neg hne]
    exact hlast
  · intro hc
    rw [List.drop_eq_nil_iff] at hc
    omega

theorem c6_witness :
    (2 < 3 ∧ "abcde".toList ≠ []) ∧
      (glueChunks 2 (simple_chunker "abcde".toList 3 2 (by decide)) = "abcde".toList ∧
        ∃ c, (simple_chunker "abcde".toList 3 2 (by decide)).getLast? = some c ∧
          c ≠ [] ∧ c.IsSuffix "abcde".toList) :=
  ⟨⟨by decide, by decide⟩, c6_chunker_reconstructs "abcde".toList 3 2 (by decide) (by decide)⟩

/-! ## Vector Index — `backend/app/services/vector_store.py`

`VectorStore` is a thin wrapper around one persistent Chroma collection.
Chroma itself is an external dependency whose code is not under `src/`, so the
collection is modelled from the spec (§4.3, §7): a list of Vector Records with
length-validated `add`, where-filtered nearest-neighbour `query` (similarity
abstracted as a distance function parameter) and where-filtered `delete`. -/

/-- Metadata of one stored record, exactly as written by `add_vectors`:
`{"user_id": user_id, "doc_id": doc_id, "chunk_index": i}`. -/
structure Meta where
  user_id : Int
  doc_id : Int
  chunk_index : Nat
deriving DecidableEq

instance : Inhabited Meta := ⟨⟨0, 0, 0⟩⟩

/-- One record of the Chroma collection: id string, document text, embedding
and metadata. -/
structure VectorRecord where
  rid : String
  document : List Char
  embedding : List ℚ
  metadata : Meta
deriving DecidableEq

/-- Python exceptions surfaced by the modelled code paths. -/
inductive PyError where
  | validationError
  | nameError (n : String)
  | httpException (code : Nat)
deriving DecidableEq

/-- Modelled from the spec: `collection.add` of the external Chroma store.
Chroma validates that `ids`, `documents`, `embeddings` and `metadatas` all have
the same length and rejects the whole call with a validation error before
anything is written (spec §7: reject before any write); on success it appends
one record per position. -/
def collectionAdd (state : List VectorRecord) (ids : List String)
    (documents : List (List Char)) (embeddings : List (List ℚ))
    (metadatas : List Meta) : Except PyError (List VectorRecord) :=
  if ids.length = documents.length ∧ ids.length = embeddings.length ∧
      ids.length = metadatas.length then
    .ok (state ++ (ids.zip (documents.zip (embeddings.zip metadatas))).map
      (fun p => ⟨p.1, p.2.1, p.2.2.1, p.2.2.2⟩))
  else
    .error .validationError

/-- Chroma's batch-shaped query result: one inner list per query vector (the
wrapper always sends exactly one), so an empty result is `[[]]`. -/
structure ChromaQueryResult where
  ids : List (List String)
  distances : List (List ℚ)
  documents : List (List (List Char))
  metadatas : List (List Meta)
deriving DecidableEq

/-- Insertion of `a` into `l` before the first element not `le`-below it;
auxiliary for `sortLe`. -/
def insertLe {α : Type} (le : α → α → Bool) (a : α) : List α → List α
  | [] => [a]
  | b :: t => if le a b then a :: b :: t else b :: insertLe le a t

/-- A comparison sort (insertion sort); stands in for the ascending-distance
ordering of the store's query results — the claims depend only on which
records appear in the result, so any comparison sort models the ordering. -/
def sortLe {α : Type} (le : α → α → Bool) : List α → List α
  | [] => []
  | a :: t => insertLe le a (sortLe le t)

theorem mem_insertLe {α : Type} (le : α → α → Bool) (a x : α) (l : List α) :
    x ∈ insertLe le a l ↔ x = a ∨ x ∈ l := by
  induction l with
  | nil => simp [insertLe]
  | cons b t ih =>
    rw [insertLe]
    by_cases h : le a b
    · simp [h]
    · simp [h, ih]
      tauto

theorem mem_sortLe {α : Type} (le : α → α → Bool) (x : α) (l : List α) :
    x ∈ sortLe le l ↔ x ∈ l := by
  induction l with
  | nil => simp [sortLe]
  | cons a t ih => simp [sortLe, mem_insertLe, ih]

/-- Modelled from the spec: the records picked by Chroma's `collection.query`
with a `where={"user_id": filter_user}` clause — the stored records matching
the filter, ordered closest-first by the store's distance (abstracted as
`dist` applied to the query vector and each record's embedding), truncated to
`n_results` (spec §4.3: empty, not an error, when nothing matches or
`k ≤ 0`). -/
def collectionPicked (dist : List ℚ → List ℚ → ℚ) (state : List VectorRecord)
    (query_vector : List ℚ) (n_results : Int) (filter_user : Int) :
    List VectorRecord :=
  (sortLe
    (fun a b => decide (dist query_vector a.embedding ≤ dist query_vector b.embedding))
    (state.filter (fun r => r.metadata.user_id == filter_user))).take
    n_results.toNat

/-- Modelled from the spec: Chroma's `collection.query` result for one query
vector, in batch shape, with `include=["documents", "metadatas", "distances"]`
as requested by `VectorStore.search`. -/
def collectionQuery (dist : List ℚ → List ℚ → ℚ) (state : List VectorRecord)
    (query_vector : List ℚ) (n_results : Int) (filter_user : Int) :
    ChromaQueryResult :=
  { ids := [(collectionPicked dist state query_vector n_results filter_user).map (·.rid)]
    distances := [(collectionPicked dist state query_vector n_results filter_user).map
      (fun r => dist query_vector r.embedding)]
    documents := [(collectionPicked dist state query_vector n_results filter_user).map
      (·.document)]
    metadatas := [(collectionPicked dist state query_vector n_results filter_user).map
      (·.metadata)] }

/-- Modelled from the spec: Chroma's `collection.delete` with a `where`
clause — removes every record matching the clause; a no-op when none match. -/
def collectionDelete (pred : VectorRecord → Bool) (state : List VectorRecord) :
    List VectorRecord :=
  state.filter (fun r => !(pred r))

namespace VectorStore

/-- `VectorStore.add_vectors(user_id, doc_id, texts, embeddings)`: returns
immediately if `len(texts) == 0`, otherwise builds one
`f"{user_id}_{doc_id}_{uuid4()}"` id (the fresh random component abstracted as
`uuid : Nat → String`) and one `{"user_id": ..., "doc_id": ..., "chunk_index": i}`
metadata per text, and calls `collection.add`. -/
def add_vectors (uuid : Nat → String) (state : List VectorRecord)
    (user_id doc_id : Int) (texts : List (List Char))
    (embeddings : List (List ℚ)) : Except PyError (List VectorRecord) :=
  if texts.length = 0 then .ok state
  else
    collectionAdd state
      ((List.range texts.length).map
        (fun i => toString user_id ++ "_" ++ toString doc_id ++ "_" ++ uuid i))
      texts embeddings
      ((List.range texts.length).map (fun i => ⟨user_id, doc_id, i⟩))

/-- `VectorStore.search(user_id, query_vector, k)`: queries the collection
with `where={"user_id": user_id}` and `n_results=k`. -/
def search (dist : List ℚ → List ℚ → ℚ) (state : List VectorRecord)
    (user_id : Int) (query_vector : List ℚ) (k : Int) : ChromaQueryResult :=
  collectionQuery dist state query_vector k user_id

/-- `VectorStore.delete_document(user_id, doc_id)`: deletes with
`where={"$and": [{"user_id": user_id}, {"doc_id": doc_id}]}`. -/
def delete_document (state : List VectorRecord) (user_id doc_id : Int) :
    List VectorRecord :=
  collectionDelete
    (fun r => r.metadata.user_id == user_id && r.metadata.doc_id == doc_id) state

/-- `VectorStore.delete_user_vectors(user_id)`: deletes with
`where={"user_id": user_id}`. -/
def delete_user_vectors (state : List VectorRecord) (user_id : Int) :
    List VectorRecord :=
  collectionDelete (fun r => r.metadata.user_id == user_id) state

end VectorStore

/-- A distance function ignoring its arguments, used to instantiate the
abstracted similarity metric in concrete evaluations. -/
def constDist : List ℚ → List ℚ → ℚ := fun _ _ => 0

/-- A uuid generator returning a fixed string, used in concrete evaluations. -/
def constUuid : Nat → String := fun _ => "uuid"

/-- C1: for every tenant id, query vector and `k`, `VectorStore.search` scoped
to that tenant returns only records whose stored tenant id (`user_id`
metadata) equals it, regardless of the contents of the index. -/
theorem c1_search_tenant_isolation (dist : List ℚ → List ℚ → ℚ)
    (state : List VectorRecord) (tenant : Int) (query_vector : List ℚ) (k : Int) :
    ∀ batch ∈ (VectorStore.search dist state tenant query_vector k).metadatas,
      ∀ m ∈ batch, m.user_id = tenant := by
  intro batch hb m hm
  simp only [VectorStore.search, collectionQuery, List.mem_singleton] at hb
  subst hb
  simp only [List.mem_map] at hm
  obtain ⟨r, hr, rfl⟩ := hm
  rw [collectionPicked] at hr
  have hr2 := List.mem_of_mem_take hr
  rw [mem_sortLe] at hr2
  have hp := List.of_mem_filter hr2
  simpa using hp

/-- A two-tenant index used to witness the isolation theorem. -/
def sampleState : List VectorRecord :=
  [⟨"1_1_uuid", "sky".toList, [], ⟨1, 1, 0⟩⟩, ⟨"2_1_uuid", "sky".toList, [], ⟨2, 1, 0⟩⟩]

theorem c1_witness :
    (([⟨1, 1, 0⟩] : List Meta)
        ∈ (VectorStore.search constDist sampleState 1 [] 5).metadatas ∧
      (⟨1, 1, 0⟩ : Meta) ∈ ([⟨1, 1, 0⟩] : List Meta)) ∧
    (Meta.mk 1 1 0).user_id = 1 := by
  have hb : ([⟨1, 1, 0⟩] : List Meta)
      ∈ (VectorStore.search constDist sampleState 1 [] 5).metadatas := by decide
  have hm : (⟨1, 1, 0⟩ : Meta) ∈ ([⟨1, 1, 0⟩] : List Meta) := by decide
  exact ⟨⟨hb, hm⟩, c1_search_tenant_isolation constDist sampleState 1 [] 5 _ hb _ hm⟩

/-- Chroma's result for one query vector matching nothing. -/
def emptyQueryResult : ChromaQueryResult := ⟨[[]], [[]], [[]], [[]]⟩

/-- C3: `search` returns the empty batch result — not an error (the model is a
total function: the spec-modelled collection query raises only on storage
failure, out of scope here) — whenever the tenant has no stored records or
`k ≤ 0`. -/
theorem c3_search_empty (dist : List ℚ → List ℚ → ℚ) (state : List VectorRecord)
    (tenant : Int) (query_vector : List ℚ) (k : Int)
    (h : (∀ r ∈ state, r.metadata.user_id ≠ tenant) ∨ k ≤ 0) :
    VectorStore.search dist state tenant query_vector k = emptyQueryResult := by
  have hp : collectionPicked dist state query_vector k tenant = [] := by
    rcases h with h | h
    · have hf : state.filter (fun r => r.metadata.user_id == tenant) = [] := by
        rw [List.filter_eq_nil_iff]
        intro r hr
        simpa using h r hr
      simp [collectionPicked, hf, sortLe]
    · have hk : k.toNat = 0 := Int.toNat_of_nonpos h
      simp [collectionPicked, hk]
  simp [VectorStore.search, collectionQuery, hp, emptyQueryResult]

theorem c3_witness :
    ((∀ r ∈ ([] : List VectorRecord), r.metadata.user_id ≠ 1) ∨ (5 : Int) ≤ 0) ∧
      VectorStore.search constDist [] 1 [] 5 = emptyQueryResult :=
  ⟨Or.inl (by simp), c3_search_empty constDist [] 1 [] 5 (Or.inl (by simp))⟩

/-- C4 counterexample: a call with `len(texts) = 0 ≠ 1 = len(embeddings)` is a
mismatched call, yet `add_vectors` hits the `if count == 0: return` early exit
and returns successfully instead of being rejected with a validation error. -/
theorem c4_counterexample :
    ([] : List (List Char)).length ≠ [([] : List ℚ)].length ∧
      VectorStore.add_vectors constUuid [] 1 1 [] [[]] = .ok [] :=
  ⟨by decide, rfl⟩

/-- C4 (amended): a call to `add_vectors` with `len(texts) ≠ len(embeddings)`
is rejected with a validation error before any record is written — the index
is unchanged — whenever `texts` is non-empty; a call with empty `texts` is a
silent no-op regardless of `embeddings`. -/
theorem c4_add_vectors_mismatch (uuid : Nat → String) (state : List VectorRecord)
    (user_id doc_id : Int) (texts : List (List Char)) (embeddings : List (List ℚ))
    (hmis : texts.length ≠ embeddings.length) :
    (texts ≠ [] →
      VectorStore.add_vectors uuid state user_id doc_id texts embeddings
        = .error .validationError) ∧
    (texts = [] →
      VectorStore.add_vectors uuid state user_id doc_id texts embeddings
        = .ok state) := by
  constructor
  · intro hne
    have hlen : texts.length ≠ 0 := (List.length_pos.mpr hne).ne'
    rw [VectorStore.add_vectors, if_neg hlen, collectionAdd, if_neg]
    intro hcon
    apply hmis
    simpa using hcon.2.1
  · intro he
    subst he
    rfl

theorem c4_witness :
    (([['a']] : List (List Char)).length ≠ ([] : List (List ℚ)).length ∧
      ([['a']] : List (List Char)) ≠ []) ∧
      VectorStore.add_vectors constUuid [] 1 1 [['a']] [] = .error .validationError :=
  ⟨⟨by decide, by decide⟩,
    (c4_add_vectors_mismatch constUuid [] 1 1 [['a']] [] (by decide)).1 (by decide)⟩

/-- C8: `delete_document` is idempotent — a second call with the same tenant
and document ids (and no intervening writes) leaves the index unchanged; the
model is a total function, so no error is raised (the spec-modelled collection
delete raises only on storage failure, out of scope here), and deleting with
no matching records is a no-op. -/
theorem c8_delete_document_idempotent (state : List VectorRecord)
    (user_id doc_id : Int) :
    VectorStore.delete_document (VectorStore.delete_document state user_id doc_id)
        user_id doc_id
      = VectorStore.delete_document state user_id doc_id := by
  simp [VectorStore.delete_document, collectionDelete, List.filter_filter]

/-! ## Embedder — `backend/app/services/embedding.py`

`EmbeddingService._text_to_embedding` hashes `f"{seed}:{text}"` with SHA-256
for seeds `0..11`, rescales each digest byte, and L2-normalizes.  SHA-256
(Python's `hashlib`, an external dependency) is abstracted as a `digest`
parameter producing the byte list of the digest of its input string, and the
floating-point square root inside `np.linalg.norm` (external numpy) as a
`sqrtFn` parameter applied to the sum of squares; exact rational arithmetic
stands in for floats.  Both the source embedding and the spec's reference
definition below are parametric in the same `digest` and `sqrtFn`, so the
comparison isolates exactly the construction the source performs. -/

/-- The rescaling `(byte / 255.0) * 2 - 1`. -/
def byteVal (b : Nat) : ℚ := ((b : ℚ) / 255) * 2 - 1

/-- `EmbeddingService._text_to_embedding`, from the source: for `seed` in
`range(12)` hash `f"{seed}:{text}"`, for `i` in `range(0, 32)` append the
rescaled byte `hash_bytes[i % len(hash_bytes)]`; then
`norm = np.linalg.norm(embedding)` (the square root of the sum of squares) and
`if norm > 0:` divide every entry by `norm`. -/
def text_to_embedding (digest : String → List Nat) (sqrtFn : ℚ → ℚ)
    (text : String) : List ℚ :=
  let v := ((List.range 12).map (fun seed =>
    (List.range 32).map (fun i =>
      byteVal ((digest (toString seed ++ ":" ++ text)).getD
        (i % (digest (toString seed ++ ":" ++ text)).length) 0)))).flatten
  let norm := sqrtFn ((v.map (fun x => x * x)).sum)
  if 0 < norm then v.map (fun x => x / norm) else v

/-- Modelled from the spec: the reference definition of `embed` in the claim's
words — for seeds `0..11` take the 32-byte digest of `"{seed}:{text}"`, map
each digest byte `b` to `(b/255)*2 - 1`, concatenate the 12 groups, then
divide by the L2 norm unless that norm is exactly zero. -/
def embedSpec (digest : String → List Nat) (sqrtFn : ℚ → ℚ)
    (text : String) : List ℚ :=
  let v := ((List.range 12).map (fun seed =>
    (digest (toString seed ++ ":" ++ text)).map byteVal)).flatten
  let norm := sqrtFn ((v.map (fun x => x * x)).sum)
  if norm = 0 then v else v.map (fun x => x / norm)

theorem range_map_getD_eq_map {l : List Nat} (h : l.length = 32) (f : Nat → ℚ) :
    (List.range 32).map (fun i => f (l.getD (i % l.length) 0)) = l.map f := by
  apply List.ext_getElem
  · simp [h]
  · intro i h1 h2
    simp only [List.getElem_map, List.getElem_range]
    have hi : i < 32 := by simpa using h1
    have hil : i < l.length := by omega
    rw [Nat.mod_eq_of_lt hil, List.getD_eq_getElem l 0 hil]

/-- C7: the source's `_text_to_embedding` coincides with the spec's reference
definition — same seeds `0..11`, same hashed strings `"{seed}:{text}"`, same
byte rescaling, and the `norm > 0` guard of the source agrees with the spec's
"unless the norm is exactly zero" because the square root is non-negative.  In
particular `embed` is deterministic: it is a pure function of its text (the
digest is a fixed function), so two calls on identical text yield identical
vectors. -/
theorem c7_embedding_matches_spec (digest : String → List Nat) (sqrtFn : ℚ → ℚ)
    (hd : ∀ s, (digest s).length = 32) (hsq : ∀ q : ℚ, 0 ≤ sqrtFn q)
    (text : String) :
    text_to_embedding digest sqrtFn text = embedSpec digest sqrtFn text := by
  have hv : ((List.range 12).map (fun seed =>
      (List.range 32).map (fun i =>
        byteVal ((digest (toString seed ++ ":" ++ text)).getD
          (i % (digest (toString seed ++ ":" ++ text)).length) 0)))).flatten
      = ((List.range 12).map (fun seed =>
        (digest (toString seed ++ ":" ++ text)).map byteVal)).flatten := by
    congr 1
    apply List.map_congr_left
    intro seed _
    exact range_map_getD_eq_map (hd _) byteVal
  simp only [text_to_embedding, embedSpec]
  rw [hv]
  rcases (hsq ((((List.range 12).map (fun seed =>
      (digest (toString seed ++ ":" ++ text)).map byteVal)).flatten.map
        (fun x => x * x)).sum)).lt_or_eq with hlt | heq
  · rw [if_pos hlt, if_neg (ne_of_gt hlt)]
  · rw [if_neg (by rw [← heq]; exact lt_irrefl 0), if_pos heq.symm]

/-- An all-zero digest, used to instantiate the abstracted hash concretely. -/
def zeroDigest : String → List Nat := fun _ => List.replicate 32 0

/-- The zero square root, used to instantiate the abstracted root concretely. -/
def zeroSqrt : ℚ → ℚ := fun _ => 0

theorem c7_witness :
    ((∀ s, (zeroDigest s).length = 32) ∧ (∀ q : ℚ, 0 ≤ zeroSqrt q)) ∧
      text_to_embedding zeroDigest zeroSqrt "memory"
        = embedSpec zeroDigest zeroSqrt "memory" :=
  ⟨⟨fun s => by simp [zeroDigest], fun q => le_refl 0⟩,
    c7_embedding_matches_spec zeroDigest zeroSqrt
      (fun s => by simp [zeroDigest]) (fun q => le_refl 0) "memory"⟩

/-! ## Query Engine — `backend/app/api/v1/endpoints/query.py`, `search_memory`

The endpoint embeds the query, searches the store scoped to the current user,
formats Chroma's batch result, then branches: missing Groq credential →
degraded answer with whatever sources were found; empty results → fixed
"nothing found" answer; otherwise one completion call whose outcome is
abstracted as an `Except` (the `try`/`except Exception` block spans the groq
import, client construction, request and response access, so any failure of
the call surfaces as the `.error` case).  Pydantic response models become
plain structures; the prompt strings are consumed only by the external
completion service and are absorbed into the abstracted `completion`
outcome. -/

/-- The `SearchResult` schema of `backend/app/schemas/document.py`. -/
structure SearchResult where
  document_id : Int
  score : ℚ
  content_snippet : List Char
  metadata : Meta
deriving DecidableEq

/-- The `AugmentedQueryResponse` schema of `backend/app/schemas/document.py`. -/
structure AugmentedQueryResponse where
  answer : String
  sources : List SearchResult
deriving DecidableEq

/-- The degraded-mode answer returned when no Groq credential is set. -/
def groqMissingAnswer : String := "Groq API Key not set. Returning search results only."

/-- The fixed "nothing found" answer of the source. -/
def nothingFoundAnswer : String :=
  "I couldn\x27t find any relevant memories matching your query."

/-- The generation-failure answer of the source: a fixed disclosing prefix
with the caught exception's text appended (`f"... Error: {str(e)}"`). -/
def generationFailedAnswer (e : String) : String :=
  "I found some memories, but I couldn\x27t generate a summary right now. Error: " ++ e

/-- Step 3 of `search_memory`: formatting of Chroma's batch result.  The
source guards with `if results['ids'] and len(results['ids'][0]) > 0`, then
builds one `SearchResult` per position `i` of `results['ids'][0]` from the
parallel `distances`, `documents` and `metadatas` inner lists (out-of-range
positions modelled by `getD` defaults; the store model always produces
parallel lists). -/
def formatResults (results : ChromaQueryResult) : List SearchResult :=
  if results.ids ≠ [] ∧ 0 < (results.ids.headD []).length then
    (List.range (results.ids.headD []).length).map (fun i =>
      { document_id := ((results.metadatas.headD []).getD i default).doc_id
        score := (results.distances.headD []).getD i 0
        content_snippet := (results.documents.headD []).getD i []
        metadata := (results.metadatas.headD []).getD i default })
  else []

/-- The `search_memory` endpoint.  `apiKey` is `settings.GROQ_API_KEY` (empty
string when the environment variable is unset; `if not settings.GROQ_API_KEY`
is Python's emptiness test), `completion` the abstracted outcome of the Groq
chat-completion call, `user_id` the authenticated tenant, and `k` the request
body's result count. -/
def search_memory (digest : String → List Nat) (sqrtFn : ℚ → ℚ)
    (dist : List ℚ → List ℚ → ℚ) (state : List VectorRecord) (apiKey : String)
    (completion : Except String String) (user_id : Int) (queryText : String)
    (k : Int) : AugmentedQueryResponse :=
  let query_vector := text_to_embedding digest sqrtFn queryText
  let results := VectorStore.search dist state user_id query_vector k
  let formatted_results := formatResults results
  if apiKey = "" then
    { answer := groqMissingAnswer, sources := formatted_results }
  else if formatted_results = [] then
    { answer := nothingFoundAnswer, sources := [] }
  else
    match completion with
    | .ok answer => { answer := answer, sources := formatted_results }
    | .error e => { answer := generationFailedAnswer e, sources := formatted_results }

/-- C5: when the vector search produced at least one formatted result and a
Groq credential is configured, a failing completion call is caught: the
endpoint still returns the full ordered formatted result list as `sources`,
with an answer disclosing the generation failure — and the failure is never
propagated as a hard failure of the query (the modelled endpoint is a total
function of the completion outcome). -/
theorem c5_completion_failure_degrades (digest : String → List Nat)
    (sqrtFn : ℚ → ℚ) (dist : List ℚ → List ℚ → ℚ) (state : List VectorRecord)
    (apiKey : String) (user_id : Int) (queryText : String) (k : Int) (e : String)
    (hkey : apiKey ≠ "")
    (hres : formatResults (VectorStore.search dist state user_id
      (text_to_embedding digest sqrtFn queryText) k) ≠ []) :
    search_memory digest sqrtFn dist state apiKey (.error e) user_id queryText k
      = { answer := generationFailedAnswer e,
          sources := formatResults (VectorStore.search dist state user_id
            (text_to_embedding digest sqrtFn queryText) k) } := by
  simp only [search_memory]
  rw [if_neg hkey, if_neg hres]

theorem c5_witness :
    (("key" : String) ≠ "" ∧
      formatResults (VectorStore.search constDist sampleState 1
        (text_to_embedding zeroDigest zeroSqrt "q") 5) ≠ []) ∧
      search_memory zeroDigest zeroSqrt constDist sampleState "key"
          (.error "boom") 1 "q" 5
        = { answer := generationFailedAnswer "boom",
            sources := formatResults (VectorStore.search constDist sampleState 1
              (text_to_embedding zeroDigest zeroSqrt "q") 5) } := by
  have h1 : ("key" : String) ≠ "" := by decide
  have h2 : formatResults (VectorStore.search constDist sampleState 1
      (text_to_embedding zeroDigest zeroSqrt "q") 5) ≠ [] := by decide
  exact ⟨⟨h1, h2⟩,
    c5_completion_failure_degrades zeroDigest zeroSqrt constDist sampleState
      "key" 1 "q" 5 "boom" h1 h2⟩

/-- C10: the credential check precedes the empty-results check — with no Groq
credential configured the endpoint returns the credential-missing degraded
answer together with whatever formatted results the search produced (even
zero of them), and the fixed "nothing found" answer is reachable only when a
credential is configured. -/
theorem c10_credential_check_first (digest : String → List Nat)
    (sqrtFn : ℚ → ℚ) (dist : List ℚ → List ℚ → ℚ) (state : List VectorRecord)
    (completion : Except String String) (user_id : Int) (queryText : String)
    (k : Int) :
    (search_memory digest sqrtFn dist state "" completion user_id queryText k
      = { answer := groqMissingAnswer,
          sources := formatResults (VectorStore.search dist state user_id
            (text_to_embedding digest sqrtFn queryText) k) }) ∧
    ∀ apiKey, (search_memory digest sqrtFn dist state apiKey completion user_id
        queryText k).answer = nothingFoundAnswer → apiKey ≠ "" := by
  have h0 : search_memory digest sqrtFn dist state "" completion user_id queryText k
      = { answer := groqMissingAnswer,
          sources := formatResults (VectorStore.search dist state user_id
            (text_to_embedding digest sqrtFn queryText) k) } := by
    simp only [search_memory]
    simp
  refine ⟨h0, ?_⟩
  intro apiKey hans hkey
  subst hkey
  rw [h0] at hans
  have hg : groqMissingAnswer = nothingFoundAnswer := hans
  exact absurd hg (by decide)

theorem c10_witness :
    (search_memory zeroDigest zeroSqrt constDist [] "key" (.ok "a") 1 "q" 5).answer
        = nothingFoundAnswer ∧ ("key" : String) ≠ "" := by
  have hans : (search_memory zeroDigest zeroSqrt constDist [] "key"
      (.ok "a") 1 "q" 5).answer = nothingFoundAnswer := by decide
  exact ⟨hans,
    (c10_credential_check_first zeroDigest zeroSqrt constDist [] (.ok "a") 1 "q" 5).2
      "key" hans⟩

/-! ## Delete endpoint — `backend/app/api/v1/endpoints/ingest.py`, `delete_document`

The module imports `List` (typing), `APIRouter, Depends` (fastapi), `Session`
(sqlalchemy), `database, security`, `User`, `Document`, `DocumentCreate,
DocumentResponse`, `EmbeddingService` and `VectorStore`; it never imports
`HTTPException`, and `HTTPException` is not a Python builtin, so the
`raise HTTPException(status_code=404, ...)` line fails at name resolution. -/

/-- One row of the SQL `documents` table (the fields the lookup reads). -/
structure SqlDoc where
  id : Int
  user_id : Int
deriving DecidableEq

/-- The names bound at module level in `ingest.py`: its imports, `router`,
and the module's own top-level functions.  `HTTPException` is absent. -/
def ingestModuleNames : List String :=
  ["List", "APIRouter", "Depends", "Session", "database", "security", "User",
   "Document", "DocumentCreate", "DocumentResponse", "EmbeddingService",
   "VectorStore", "router", "simple_chunker", "ingest_document",
   "get_documents", "get_stats", "delete_document", "delete_all_documents"]

/-- The `delete_document` endpoint: query the documents table for the id and
owner; if nothing matches, execute `raise HTTPException(status_code=404, ...)`,
which first resolves the name `HTTPException` against the module scope (a
missing name raises `NameError` instead); otherwise delete the vectors, then
the SQL row, and return success. -/
def delete_document_endpoint (doc_id user_id : Int) (sqlDocs : List SqlDoc)
    (vecState : List VectorRecord) :
    Except PyError (List SqlDoc × List VectorRecord) :=
  match sqlDocs.find? (fun d => d.id == doc_id && d.user_id == user_id) with
  | none =>
      if "HTTPException" ∈ ingestModuleNames then .error (.httpException 404)
      else .error (.nameError "HTTPException")
  | some db_doc =>
      .ok (sqlDocs.erase db_doc, VectorStore.delete_document vecState user_id doc_id)

/-- C9: when the named document does not exist or is owned by a different
user, the endpoint raises before `VectorStore.delete_document` and the SQL
delete run — the outcome is an error carrying no modified state, so neither
the vector index nor the metadata store changes — and the exception raised is
a `NameError` for `HTTPException` (referenced but never imported in the
module), not an HTTP 404 response. -/
theorem c9_delete_endpoint_name_error (doc_id user_id : Int)
    (sqlDocs : List SqlDoc) (vecState : List VectorRecord)
    (h : sqlDocs.find? (fun d => d.id == doc_id && d.user_id == user_id) = none) :
    delete_document_endpoint doc_id user_id sqlDocs vecState
      = .error (.nameError "HTTPException") ∧
    "HTTPException" ∉ ingestModuleNames := by
  have hn : "HTTPException" ∉ ingestModuleNames := by decide
  refine ⟨?_, hn⟩
  simp only [delete_document_endpoint, h]
  rw [if_neg hn]

theorem c9_witness :
    (([] : List SqlDoc).find? (fun d => d.id == 1 && d.user_id == 1) = none) ∧
      (delete_document_endpoint 1 1 [] [] = .error (.nameError "HTTPException") ∧
        "HTTPException" ∉ ingestModuleNames) :=
  ⟨rfl, c9_delete_endpoint_name_error 1 1 [] [] rfl⟩

end RecallAI
